import Mathlib

/-
Verification development for the survey data-processing repository.
The Python sources (data_processing/processor.py, data_analysis/analysis.py)
are shallowly embedded below: pandas cells become the Cell type, a pandas
DataFrame becomes a column list plus rows of cells, Python exceptions become
Except.error, and Python dicts become association lists updated in insertion
order.  The scipy statistics functions and the lxml text cleaner are not part
of this repository; they enter as explicit function parameters.
-/

namespace MLSurvey

/-- A pandas cell: missing value (NaN), a string, or an integer. -/
inductive Cell where
  | na : Cell
  | str : String → Cell
  | int : Int → Cell
deriving DecidableEq, Repr

/-- Model of the Python test p == q :: List Char on a candidate position,
used to build substring containment the way the Python in operator works. -/
def startsWithL : List Char → List Char → Bool
  | [], _ => true
  | _ :: _, [] => false
  | p :: ps, c :: cs => p == c && startsWithL ps cs

/-- Substring containment on char lists, the semantics of Python pat in s. -/
def hasSubL (pat : List Char) : List Char → Bool
  | [] => startsWithL pat []
  | c :: cs => startsWithL pat (c :: cs) || hasSubL pat cs

/-- Python substring test: pat in s for strings. -/
def hasSubStr (s pat : String) : Bool := hasSubL pat.toList s.toList

/-- Character membership in a list of characters. -/
def charInL (c : Char) : List Char → Bool
  | [] => false
  | x :: xs => x == c || charInL c xs

/-- Python single-character containment test: c in s. -/
def strHasChar (s : String) (c : Char) : Bool := charInL c s.toList

/-- Index of the first occurrence of a character, if any. -/
def pyFindAux (c : Char) : List Char → Option Nat
  | [] => none
  | x :: xs => if x == c then some 0 else (pyFindAux c xs).map (· + 1)

/-- Python str.find for a single character: index of first occurrence or -1. -/
def pyFind (s : String) (c : Char) : Int :=
  match pyFindAux c s.toList with
  | none => -1
  | some n => (n : Int)

/-- Normalize a Python slice endpoint to a clamped natural index. -/
def clampIdx (n : Nat) (i : Int) : Nat :=
  (max (if i < 0 then (n : Int) + i else i) 0).toNat

/-- Python slice s[:i], with Python semantics for negative i. -/
def pySliceBefore (s : String) (i : Int) : String :=
  String.mk (s.toList.take (clampIdx s.toList.length i))

/-- Python slice s[a:b], with Python semantics for negative endpoints. -/
def pySlice (s : String) (a b : Int) : String :=
  String.mk ((s.toList.take (clampIdx s.toList.length b)).drop (clampIdx s.toList.length a))

/-- Fuel-indexed body of Python str.replace: replaces non-overlapping
occurrences left to right.  Fuel is the length of the scanned list, which
each step strictly decreases by at least one. -/
def pyReplaceAux (pat rep : List Char) : Nat → List Char → List Char
  | _, [] => []
  | 0, s => s
  | fuel + 1, c :: cs =>
    if !pat.isEmpty && startsWithL pat (c :: cs) then
      rep ++ pyReplaceAux pat rep fuel ((c :: cs).drop pat.length)
    else
      c :: pyReplaceAux pat rep fuel cs

/-- Python str.replace(pat, rep) for nonempty patterns. -/
def pyReplace (s pat rep : String) : String :=
  String.mk (pyReplaceAux pat.toList rep.toList s.toList.length s.toList)

/-- Association-list lookup, first match wins. -/
def lookupA {α : Type} {β : Type} [DecidableEq α] (k : α) : List (α × β) → Option β
  | [] => none
  | kv :: rest => if kv.1 = k then some kv.2 else lookupA k rest

/-- Python dict assignment on an association list whose keys are unique:
overwrite the binding in place, or append a new one at the end, preserving
insertion order exactly as a Python dict does. -/
def dinsert {α : Type} {β : Type} [DecidableEq α] (k : α) (v : β) :
    List (α × β) → List (α × β)
  | [] => [(k, v)]
  | kv :: rest => if kv.1 = k then (k, v) :: rest else kv :: dinsert k v rest

/-- Effectful map over a list in the Except monad, stopping at the first
error, like a Python loop whose body may raise. -/
def mapE {α β : Type} (f : α → Except String β) : List α → Except String (List β)
  | [] => .ok []
  | a :: l =>
    match f a with
    | .error e => .error e
    | .ok b =>
      match mapE f l with
      | .error e => .error e
      | .ok bs => .ok (b :: bs)

/-- Effectful fold over a list in the Except monad, stopping at the first
error, like a Python loop mutating an accumulator whose body may raise. -/
def foldE {σ α : Type} (f : σ → α → Except String σ) : σ → List α → Except String σ
  | acc, [] => .ok acc
  | acc, a :: l =>
    match f acc a with
    | .error e => .error e
    | .ok acc2 => foldE f acc2 l

/-- One answer option of a LimeSurvey question, as limepy delivers it. -/
structure AnswerEntry where
  code : String
  answer : String
  sortorder : String
deriving DecidableEq, Repr

/-- One subquestion of a LimeSurvey question, as limepy delivers it. -/
structure SubQuestion where
  title : String
  question : String
deriving DecidableEq, Repr

/-- A LimeSurvey question as limepy delivers it.  The answers and
subquestions dictionaries are optional (Python key-presence tests) and map a
scale name to the list of entries of that scale. -/
structure Question where
  title : String
  question : String
  question_type : String
  qid : String
  answers : Option (List (String × List AnswerEntry))
  subquestions : Option (List (String × List SubQuestion))
deriving DecidableEq, Repr

/-- A pandas DataFrame of survey responses: named columns and rows of cells
aligned with the column list. -/
structure Df where
  cols : List String
  rows : List (List Cell)
deriving DecidableEq, Repr

/-- The survey object handed to SurveyProcessor: the question dictionary in
iteration order and the raw response DataFrame. -/
structure Survey where
  questions : List Question
  dataframe : Df
deriving DecidableEq, Repr

/-- Python questions[q].get of the scale-0 subquestions; none models the
KeyError raised when the key chain subquestions then 0 is absent. -/
def getSub0 (q : Question) : Option (List SubQuestion) :=
  match q.subquestions with
  | none => none
  | some scales => lookupA "0" scales

/-- Python questions[q].get of the scale-0 answers; none models the KeyError
raised when the key chain answers then 0 is absent. -/
def getAns0 (q : Question) : Option (List AnswerEntry) :=
  match q.answers with
  | none => none
  | some scales => lookupA "0" scales

/-- Index of a column name in a DataFrame column list, none for a KeyError. -/
def idxOfCol (name : String) : List String → Option Nat
  | [] => none
  | c :: cs => if c = name then some 0 else (idxOfCol name cs).map (· + 1)

/-- SurveyProcessor.filter_completed_questions: keep the rows whose lastpage
cell equals the given last page number; missing column is a pandas KeyError. -/
def filter_completed_questions (df : Df) (lastpage : Int) : Except String Df :=
  match idxOfCol "lastpage" df.cols with
  | none => .error "KeyError: lastpage"
  | some i =>
    .ok { cols := df.cols,
          rows := df.rows.filter (fun r => decide (r.getD i Cell.na = Cell.int lastpage)) }

/-- The per-question answer-code-to-text dictionary built by
make_answer_code_to_text_mapping: from the answers entries when the answers
key is present, else from the subquestions entries, else empty. -/
def question_answer_map (q : Question) : List (String × String) :=
  match q.answers with
  | some scales => (scales.map (fun sc => sc.2.map (fun a => (a.code, a.answer)))).flatten
  | none =>
    match q.subquestions with
    | some scales => (scales.map (fun sc => sc.2.map (fun sq => (sq.title, sq.question)))).flatten
    | none => []

/-- SurveyProcessor.make_answer_code_to_text_mapping: question title to the
answer-code-to-text dictionary of that question. -/
def make_answer_code_to_text_mapping (s : Survey) : List (String × List (String × String)) :=
  s.questions.map (fun q => (q.title, question_answer_map q))

/-- Two-level lookup in the mapping produced by
make_answer_code_to_text_mapping. -/
def mappingLookup (m : List (String × List (String × String))) (q a : String) : Option String :=
  match lookupA q m with
  | none => none
  | some qm => lookupA a qm

/-- SurveyProcessor.obtain_answer_text.  For a bracketed question code the
part before and inside the brackets index the mapping; otherwise the
explicitly passed answer code does.  Missing keys are Python KeyErrors; a
missing answer code in the plain branch is the unhashable-list TypeError of
the Python default argument. -/
def obtain_answer_text (q_code : String)
    (mapping : List (String × List (String × String))) (a_code : Option Cell) :
    Except String String :=
  if strHasChar q_code '[' then
    let i := pyFind q_code '['
    let inner := pySlice q_code (i + 1) (pyFind q_code ']')
    let outer := pySliceBefore q_code i
    match lookupA outer mapping with
    | none => .error ("KeyError: " ++ outer)
    | some qm =>
      match lookupA inner qm with
      | none => .error ("KeyError: " ++ inner)
      | some t => .ok t
  else
    match a_code with
    | none => .error "TypeError: unhashable type: list"
    | some (Cell.str a) =>
      match lookupA q_code mapping with
      | none => .error ("KeyError: " ++ q_code)
      | some qm =>
        match lookupA a qm with
        | none => .error ("KeyError: " ++ a)
        | some t => .ok t
    | some _ => .error "KeyError: non-string answer code"

/-- Value of Python int on a nonempty string of decimal digits, digit by
digit from the left. -/
def pyIntOfDigits (ds : List Char) : Int :=
  ((ds.foldl (fun a c => 10 * a + (c.toNat - 48)) 0 : Nat) : Int)

/-- SurveyProcessor.convert_answer_code_to_int: non-strings raise, the
string Y becomes 1, otherwise all non-digit characters are stripped and the
remaining digit string is parsed, int raising a ValueError on the empty
string. -/
def convert_answer_code_to_int (c : Cell) : Except String Int :=
  match c with
  | Cell.str s =>
    if s = "Y" then .ok 1
    else
      let ds := s.toList.filter Char.isDigit
      if ds = [] then .error "ValueError: invalid literal for int with base 10"
      else .ok (pyIntOfDigits ds)
  | _ => .error "The answer code should be a string."

/-- Overview rows contributed by one question in
create_question_overview_df: merged codes per subquestion for the
multiple-choice and array family, merged codes per answer sort order for
ranking, and a single plain entry otherwise.  The stored value is the pair
of cleaned text, question type and lime index. -/
def overview_entries (clean : String → String) (q : Question) :
    Except String (List (String × (String × String × String))) :=
  if q.question_type = "Multiple choice" ∨ q.question_type = "Multiple choice with comments" ∨
      q.question_type = "Array" then
    match getSub0 q with
    | none => .error "KeyError: subquestions scale 0"
    | some sqs =>
      .ok (sqs.map (fun sq =>
        (q.title ++ "[" ++ sq.title ++ "]",
         (clean q.question ++ " - " ++ clean sq.question, q.question_type, q.qid))))
  else if q.question_type = "Ranking" then
    match getAns0 q with
    | none => .error "KeyError: answers scale 0"
    | some ans =>
      .ok (ans.map (fun a =>
        (q.title ++ "[" ++ a.sortorder ++ "]",
         (clean q.question ++ " - " ++ clean a.answer, q.question_type, q.qid))))
  else
    .ok [(q.title, (clean q.question, q.question_type, q.qid))]

/-- SurveyProcessor.create_question_overview_df, keyed by answer column. -/
def create_question_overview_df (clean : String → String) (qs : List Question) :
    Except String (List (String × (String × String × String))) :=
  match mapE (overview_entries clean) qs with
  | .error e => .error e
  | .ok l => .ok l.flatten

/-- The eight kinds of question types handled by the conversion (List radio
and List dropdown share a branch, as do the two free-text types). -/
def handledConvertTypes : List String :=
  ["List radio", "List dropdown", "Multiple choice", "List with comment",
   "Multiple choice with comments", "Ranking", "Array", "Long free text", "Short free text"]

/-- The empty per-question frames built in convert_questions_to_df: each
frame is the column header list of one empty two-level DataFrame. -/
def question_frames (q : Question) : Except String (List (List (String × String))) :=
  if q.question_type = "List radio" ∨ q.question_type = "List dropdown" then
    .ok [[(q.title, "a_code"), (q.title, "a_text"), (q.title, "a")]]
  else if q.question_type = "Multiple choice" then
    match getSub0 q with
    | none => .error "KeyError: subquestions scale 0"
    | some sqs =>
      .ok (sqs.map (fun sq =>
        [(q.title ++ "[" ++ sq.title ++ "]", "a_text"),
         (q.title ++ "[" ++ sq.title ++ "]", "a")]))
  else if q.question_type = "List with comment" then
    .ok [[(q.title, "a_code"), (q.title, "a_text"), (q.title, "a"),
          (q.title, q.title ++ "[comment]")]]
  else if q.question_type = "Multiple choice with comments" then
    match getSub0 q with
    | none => .error "KeyError: subquestions scale 0"
    | some sqs =>
      .ok (sqs.map (fun sq =>
        [(q.title ++ "[" ++ sq.title ++ "]", "a_text"),
         (q.title ++ "[" ++ sq.title ++ "]", "a"),
         (q.title ++ "[" ++ sq.title ++ "]", q.title ++ "[" ++ sq.title ++ "comment]")]))
  else if q.question_type = "Ranking" then
    match getAns0 q with
    | none => .error "KeyError: answers scale 0"
    | some ans =>
      .ok (ans.map (fun a =>
        [(q.title ++ "[" ++ a.sortorder ++ "]", "a"),
         (q.title ++ "[" ++ a.sortorder ++ "]", "a_text")]))
  else if q.question_type = "Array" then
    match getSub0 q with
    | none => .error "KeyError: subquestions scale 0"
    | some sqs =>
      .ok (sqs.map (fun sq =>
        [(q.title ++ "[" ++ sq.title ++ "]", "a_code"),
         (q.title ++ "[" ++ sq.title ++ "]", "a_text"),
         (q.title ++ "[" ++ sq.title ++ "]", "a")]))
  else if q.question_type = "Long free text" ∨ q.question_type = "Short free text" then
    .ok [[(q.title, "a")]]
  else
    .ok []

/-- First-appearance deduplication, the pandas union order of the column
indexes of concatenated frames. -/
def dedupFirst {α : Type} [DecidableEq α] (l : List α) : List α :=
  l.foldl (fun acc x => if x ∈ acc then acc else acc ++ [x]) []

/-- The empty two-level scheme DataFrame returned by
convert_questions_to_df: column labels are pairs of code and version. -/
structure SchemeDf where
  cols : List (String × String)
  rows : List (List Cell)
deriving DecidableEq, Repr

/-- SurveyProcessor.convert_questions_to_df: build one empty frame per
question or subquestion and concatenate them.  pandas concat raises a
ValueError when the frame list is empty. -/
def convert_questions_to_df (qs : List Question) : Except String SchemeDf :=
  match mapE question_frames qs with
  | .error e => .error e
  | .ok framesList =>
    let frames := framesList.flatten
    if frames = [] then .error "ValueError: No objects to concatenate"
    else .ok { cols := dedupFirst frames.flatten, rows := [] }

/-- The messages printed to stdout by convert_questions_to_df: one line per
question whose type is not handled. -/
def convert_questions_log (qs : List Question) : List String :=
  qs.filterMap (fun q =>
    if q.question_type ∈ handledConvertTypes then none
    else some ("error, type not known  " ++ q.question_type))

/-- The seven metadata response columns copied through verbatim. -/
def metadataCols : List String :=
  ["submitdate", "lastpage", "startlanguage", "seed", "startdate", "datestamp", "id"]

/-- A participant dictionary: two-level column key to cell value. -/
abbrev PDict := List ((String × String) × Cell)

/-- The body of the per-column loop of process_user_input, acting on one
participant dictionary entry: skip missing values, copy other and comment
columns under derived keys, copy metadata columns, and otherwise dispatch on
the question type found in the overview, raising on unknown columns. -/
def processColumn (mapping : List (String × List (String × String)))
    (ov : List (String × (String × String × String))) (d : PDict) (cv : String × Cell) :
    Except String PDict :=
  if cv.2 = Cell.na then .ok d
  else if hasSubStr cv.1 "other" then
    .ok (dinsert (pySliceBefore cv.1 (pyFind cv.1 '['), cv.1) cv.2 d)
  else if hasSubStr cv.1 "comment" then
    .ok (dinsert (pyReplace (pyReplace cv.1 "comment" "") "[]" "", cv.1) cv.2 d)
  else if cv.1 ∈ metadataCols then
    .ok (dinsert (cv.1, "") cv.2 d)
  else
    match lookupA cv.1 ov with
    | none => .error ("The column you are trying to enter seems not to fit. " ++ cv.1)
    | some info =>
      if info.2.1 = "List radio" ∨ info.2.1 = "List dropdown" ∨
          info.2.1 = "List with comment" then
        match obtain_answer_text cv.1 mapping (some cv.2) with
        | .error e => .error e
        | .ok t =>
          match convert_answer_code_to_int cv.2 with
          | .error e => .error e
          | .ok n =>
            .ok (dinsert (cv.1, "a") (Cell.int n)
                  (dinsert (cv.1, "a_text") (Cell.str t)
                    (dinsert (cv.1, "a_code") cv.2 d)))
      else if info.2.1 = "Multiple choice" ∨ info.2.1 = "Multiple choice with comments" then
        match obtain_answer_text cv.1 mapping none with
        | .error e => .error e
        | .ok t =>
          match convert_answer_code_to_int cv.2 with
          | .error e => .error e
          | .ok n =>
            .ok (dinsert (cv.1, "a") (Cell.int n)
                  (dinsert (cv.1, "a_text") (Cell.str t) d))
      else if info.2.1 = "Ranking" then
        match obtain_answer_text (pySliceBefore cv.1 (pyFind cv.1 '[')) mapping (some cv.2) with
        | .error e => .error e
        | .ok t =>
          match convert_answer_code_to_int cv.2 with
          | .error e => .error e
          | .ok n =>
            .ok (dinsert (cv.1, "a") (Cell.int n)
                  (dinsert (cv.1, "a_text") (Cell.str t) d))
      else if info.2.1 = "Array" then
        match obtain_answer_text (pySliceBefore cv.1 (pyFind cv.1 '[')) mapping (some cv.2) with
        | .error e => .error e
        | .ok t =>
          match convert_answer_code_to_int cv.2 with
          | .error e => .error e
          | .ok n =>
            .ok (dinsert (cv.1, "a") (Cell.int n)
                  (dinsert (cv.1, "a_text") (Cell.str t)
                    (dinsert (cv.1, "a_code") cv.2 d)))
      else if info.2.1 = "Long free text" ∨ info.2.1 = "Short free text" then
        .ok (dinsert (cv.1, "a") cv.2 d)
      else
        .ok d

/-- One iteration of the participant loop of process_user_input: rebuild the
question overview and fold the per-column step over the row. -/
def processRow (clean : String → String) (s : Survey)
    (mapping : List (String × List (String × String))) (cols : List String)
    (cells : List Cell) : Except String PDict :=
  match create_question_overview_df clean s.questions with
  | .error e => .error e
  | .ok ov => foldE (processColumn mapping ov) [] (cols.zip cells)

/-- The set_index step of process_user_input: the id column becomes the row
index.  Pandas raises a KeyError when no id column exists; a participant
entry whose first level is id but whose full key differs from the plain id
metadata key would make the partial selection ambiguous. -/
def extract_index (dicts : List PDict) : Except String (List Cell) :=
  if dicts.any (fun d => d.any (fun kv => decide (kv.1.1 = "id"))) then
    if dicts.all (fun d => d.all (fun kv => !(decide (kv.1.1 = "id")) || decide (kv.1.2 = ""))) then
      .ok (dicts.map (fun d => (lookupA ("id", "") d).getD Cell.na))
    else .error "set_index: ambiguous id columns"
  else .error "KeyError: id"

/-- Final column labels of the result table: the scheme columns followed by
the new participant keys in order of first appearance, with the id column
moved out into the index. -/
def finalCols (schemeCols : List (String × String)) (dicts : List PDict) :
    List (String × String) :=
  (dicts.foldl (fun acc d =>
      d.foldl (fun a2 kv => if kv.1 ∈ a2 then a2 else a2 ++ [kv.1]) acc) schemeCols).filter
    (fun c => !(decide (c.1 = "id")))

/-- The result table of process_user_input: two-level columns, one
participant dictionary per retained respondent, and the id index. -/
structure ProcResult where
  cols : List (String × String)
  rows : List PDict
  index : List Cell
deriving DecidableEq, Repr

/-- SurveyProcessor.process_user_input: build the empty scheme, optionally
filter to completed responses, build the answer-text mapping, fold every
retained respondent row into a participant dictionary, concatenate and index
by the id column.  The fill_na parameter is accepted and never used, exactly
as in the source. -/
def process_user_input (clean : String → String) (s : Survey)
    (completed_only : Bool) (fill_na : Bool) : Except String ProcResult :=
  match convert_questions_to_df s.questions with
  | .error e => .error e
  | .ok scheme =>
    match (if completed_only then filter_completed_questions s.dataframe 39
           else Except.ok s.dataframe) with
    | .error e => .error e
    | .ok data =>
      match mapE (processRow clean s (make_answer_code_to_text_mapping s) data.cols)
          data.rows with
      | .error e => .error e
      | .ok dicts =>
        match extract_index dicts with
        | .error e => .error e
        | .ok idx =>
          .ok { cols := finalCols scheme.cols dicts,
                rows := dicts.map (fun d => d.filter (fun kv => !(decide (kv.1.1 = "id")))),
                index := idx }

/-- Lines printed by calculate_spearman_corr and calculate_kendall_corr: the
coefficient line and exactly one of the two decision lines. -/
inductive CorrLine where
  | coefLine : ℚ → CorrLine
  | uncorrelated : ℚ → CorrLine
  | correlated : ℚ → CorrLine
deriving DecidableEq, Repr

/-- calculate_spearman_corr with the scipy spearmanr routine passed in as a
function from the two data arrays to coefficient and p-value. -/
def calculate_spearman_corr (spearmanr : List ℚ → List ℚ → ℚ × ℚ)
    (data1 data2 : List ℚ) : List CorrLine :=
  let r := spearmanr data1 data2
  if r.2 > 1 / 20 then [CorrLine.coefLine r.1, CorrLine.uncorrelated r.2]
  else [CorrLine.coefLine r.1, CorrLine.correlated r.2]

/-- calculate_kendall_corr with the scipy kendalltau routine passed in as a
function from the two data arrays to coefficient and p-value. -/
def calculate_kendall_corr (kendalltau : List ℚ → List ℚ → ℚ × ℚ)
    (data1 data2 : List ℚ) : List CorrLine :=
  let r := kendalltau data1 data2
  if r.2 > 1 / 20 then [CorrLine.coefLine r.1, CorrLine.uncorrelated r.2]
  else [CorrLine.coefLine r.1, CorrLine.correlated r.2]

/-- calculate_chi_square with scipy chi2_contingency passed in as a function
from the table to statistic, p-value, degrees of freedom and expected
frequencies.  The result is the pair of the lines printed so far and the
pending exception, if one is raised.  When every cell is at least 5 the
Python source reaches the line that concatenates a str with the expected
frequency ndarray, which raises a TypeError before any decision is printed. -/
def calculate_chi_square (chi2fn : List (List Int) → ℚ × ℚ × Nat × List (List ℚ))
    (contigency_table : List (List Int)) : List String × Option String :=
  if 0 < (contigency_table.flatten.filter (fun x => decide (x < 5))).length then
    (["For Chi-Square to make sense, the values in each cell need to be >=5!"], none)
  else
    let r := chi2fn contigency_table
    (["dof=" ++ toString r.2.2.1],
     some "TypeError: can only concatenate str (not ndarray) to str")

/-- The id cell of a raw respondent row, read off the input DataFrame. -/
def rowIdCell (cols : List String) (cells : List Cell) : Cell :=
  match idxOfCol "id" cols with
  | some i => cells.getD i Cell.na
  | none => Cell.na

/-- Specification accumulator for the id entry of a participant dictionary:
the last non-missing value written under an id column. -/
def idAcc (L : List (String × Cell)) (o : Option Cell) : Option Cell :=
  L.foldl (fun acc cv => if cv.1 = "id" ∧ cv.2 ≠ Cell.na then some cv.2 else acc) o

/-- Columns promised by the specification sentence of claim C1, written from
the words of the claim: per question type, the stated second-level entries
under the stated first-level codes.  This is the reference definition the
convert_questions_to_df embedding is compared with. -/
def specColsQ (q : Question) : List (String × String) :=
  if q.question_type = "List radio" ∨ q.question_type = "List dropdown" then
    [(q.title, "a_code"), (q.title, "a_text"), (q.title, "a")]
  else if q.question_type = "List with comment" then
    [(q.title, "a_code"), (q.title, "a_text"), (q.title, "a"),
     (q.title, q.title ++ "[comment]")]
  else if q.question_type = "Multiple choice" then
    (((getSub0 q).getD []).map (fun sq =>
      [(q.title ++ "[" ++ sq.title ++ "]", "a_text"),
       (q.title ++ "[" ++ sq.title ++ "]", "a")])).flatten
  else if q.question_type = "Multiple choice with comments" then
    (((getSub0 q).getD []).map (fun sq =>
      [(q.title ++ "[" ++ sq.title ++ "]", "a_text"),
       (q.title ++ "[" ++ sq.title ++ "]", "a"),
       (q.title ++ "[" ++ sq.title ++ "]", q.title ++ "[" ++ sq.title ++ "comment]")])).flatten
  else if q.question_type = "Ranking" then
    (((getAns0 q).getD []).map (fun ans =>
      [(q.title ++ "[" ++ ans.sortorder ++ "]", "a"),
       (q.title ++ "[" ++ ans.sortorder ++ "]", "a_text")])).flatten
  else if q.question_type = "Array" then
    (((getSub0 q).getD []).map (fun sq =>
      [(q.title ++ "[" ++ sq.title ++ "]", "a_code"),
       (q.title ++ "[" ++ sq.title ++ "]", "a_text"),
       (q.title ++ "[" ++ sq.title ++ "]", "a")])).flatten
  else if q.question_type = "Long free text" ∨ q.question_type = "Short free text" then
    [(q.title, "a")]
  else []

/-- Columns promised by claim C1 for a whole survey, question by question. -/
def specCols (qs : List Question) : List (String × String) :=
  (qs.map specColsQ).flatten

/-- Total projection out of the Except monad used to name concrete computed
results in example statements. -/
def getOkP (e : Except String ProcResult) : ProcResult :=
  match e with
  | .ok r => r
  | .error _ => { cols := [], rows := [], index := [] }

/-- A concrete single-choice question used in example instantiations. -/
def exListQ : Question :=
  { title := "DEM1", question := "Age", question_type := "List radio", qid := "1",
    answers := some [("0", [{ code := "A1", answer := "Young", sortorder := "1" },
                            { code := "A2", answer := "Old", sortorder := "2" }])],
    subquestions := none }

/-- A concrete question whose type is not handled by the conversion. -/
def exUnknownQ : Question :=
  { title := "XT1", question := "xx", question_type := "Dual scale", qid := "9",
    answers := none, subquestions := none }

/-- A concrete well-formed survey with one completed respondent. -/
def exSurvey : Survey :=
  { questions := [exListQ],
    dataframe := { cols := ["id", "lastpage", "DEM1"],
                   rows := [[Cell.int 3, Cell.int 39, Cell.str "A2"]] } }

/-- The computed result table of the concrete survey. -/
def exRes : ProcResult := getOkP (process_user_input (fun t => t) exSurvey true true)

/-- A survey whose unknown response column BAD carries a value only in a
respondent row that the completion filter drops. -/
def c3Survey : Survey :=
  { questions := [exListQ],
    dataframe := { cols := ["id", "lastpage", "DEM1", "BAD"],
                   rows := [[Cell.int 1, Cell.int 39, Cell.str "A1", Cell.na],
                            [Cell.int 2, Cell.int 5, Cell.na, Cell.str "x"]] } }

/-- A survey whose unknown response column BAD carries a value in the
retained respondent row. -/
def c3BadSurvey : Survey :=
  { questions := [exListQ],
    dataframe := { cols := ["id", "lastpage", "DEM1", "BAD"],
                   rows := [[Cell.int 1, Cell.int 39, Cell.str "A1", Cell.str "x"]] } }

/-- A single-choice question whose code contains the substring other. -/
def c2Q : Question :=
  { title := "another", question := "qq", question_type := "List radio", qid := "4",
    answers := some [("0", [{ code := "A1", answer := "txt", sortorder := "1" }])],
    subquestions := none }

/-- A survey built on the question code another, which trips the other
substring branch of process_user_input. -/
def c2Survey : Survey :=
  { questions := [c2Q],
    dataframe := { cols := ["id", "lastpage", "another"],
                   rows := [[Cell.int 7, Cell.int 39, Cell.str "A1"]] } }

/-- The computed result table of the other substring survey. -/
def c2Res : ProcResult := getOkP (process_user_input (fun t => t) c2Survey true true)

/-- The computed result table of the dropped-row survey. -/
def c3Res : ProcResult := getOkP (process_user_input (fun t => t) c3Survey true true)

/-- A concrete stand-in for scipy chi2_contingency in example statements. -/
def exChi2 : List (List Int) → ℚ × ℚ × Nat × List (List ℚ) := fun _ => (0, 0, 1, [])

theorem lookupA_dinsert_self {α β : Type} [DecidableEq α] (k : α) (v : β)
    (d : List (α × β)) : lookupA k (dinsert k v d) = some v := by
  induction d with
  | nil => simp [dinsert, lookupA]
  | cons kv rest ih =>
    by_cases h : kv.1 = k
    · simp [dinsert, h, lookupA]
    · simp [dinsert, h, lookupA, ih]

theorem lookupA_dinsert_ne {α β : Type} [DecidableEq α] {k k' : α} (v : β)
    (d : List (α × β)) (h : k' ≠ k) :
    lookupA k' (dinsert k v d) = lookupA k' d := by
  induction d with
  | nil => simp [dinsert, lookupA, h, Ne.symm h]
  | cons kv rest ih =>
    by_cases hk : kv.1 = k
    · simp [dinsert, hk, lookupA, h, Ne.symm h]
    · by_cases hk' : kv.1 = k'
      · simp [dinsert, hk, lookupA, hk', h, Ne.symm h]
      · simp [dinsert, hk, lookupA, hk', ih]

theorem lookupA_append {α β : Type} [DecidableEq α] (k : α) (l1 l2 : List (α × β)) :
    lookupA k (l1 ++ l2) =
      (match lookupA k l1 with
       | some v => some v
       | none => lookupA k l2) := by
  induction l1 with
  | nil => simp [lookupA]
  | cons kv rest ih =>
    by_cases h : kv.1 = k
    · simp [lookupA, h]
    · simp [lookupA, h, ih]

theorem lookupA_eq_none {α β : Type} [DecidableEq α] {k : α} {l : List (α × β)}
    (h : ∀ kv ∈ l, kv.1 ≠ k) : lookupA k l = none := by
  induction l with
  | nil => rfl
  | cons kv rest ih =>
    have h1 : kv.1 ≠ k := h kv (List.mem_cons_self kv rest)
    simp [lookupA, h1]
    exact ih (fun kv2 hm => h kv2 (List.mem_cons_of_mem kv hm))

theorem lookupA_filter {α β : Type} [DecidableEq α] {k : α} (p : α × β → Bool)
    (l : List (α × β)) (h : ∀ v, p (k, v) = true) :
    lookupA k (l.filter p) = lookupA k l := by
  induction l with
  | nil => rfl
  | cons kv rest ih =>
    by_cases hk : kv.1 = k
    · have hkv : kv = (k, kv.2) := by
        cases kv; simp at hk; simp [hk]
      have hp : p kv = true := by rw [hkv]; exact h kv.2
      simp [List.filter, hp, lookupA, hk]
    · by_cases hp : p kv = true
      · simp [List.filter, hp, lookupA, hk, ih]
      · have hp' : p kv = false := by
          cases hpv : p kv
          · rfl
          · exact absurd hpv hp
        simp [List.filter, hp', lookupA, hk, ih]

theorem mapE_ok_length {α β : Type} {f : α → Except String β} :
    ∀ {l : List α} {l' : List β}, mapE f l = .ok l' → l'.length = l.length := by
  intro l
  induction l with
  | nil => intro l' h; simp [mapE] at h; simp [← h]
  | cons a rest ih =>
    intro l' h
    simp only [mapE] at h
    cases hf : f a with
    | error e => rw [hf] at h; exact absurd h (by simp)
    | ok b =>
      rw [hf] at h
      cases hr : mapE f rest with
      | error e => rw [hr] at h; exact absurd h (by simp)
      | ok bs =>
        rw [hr] at h
        simp at h
        rw [← h]
        simp [ih hr]

theorem mapE_ok_mem {α β : Type} {f : α → Except String β} :
    ∀ {l : List α} {l' : List β} {a : α},
      mapE f l = .ok l' → a ∈ l → ∃ b, f a = .ok b := by
  intro l
  induction l with
  | nil => intro l' a h hm; cases hm
  | cons x rest ih =>
    intro l' a h hm
    simp only [mapE] at h
    cases hf : f x with
    | error e => rw [hf] at h; exact absurd h (by simp)
    | ok b =>
      rw [hf] at h
      cases hr : mapE f rest with
      | error e => rw [hr] at h; exact absurd h (by simp)
      | ok bs =>
        rcases List.mem_cons.mp hm with he | hmem
        · exact ⟨b, he ▸ hf⟩
        · exact ih hr hmem

theorem mapE_ok_get {α β : Type} {f : α → Except String β} :
    ∀ {l : List α} {l' : List β} {i : Nat} {a : α},
      mapE f l = .ok l' → l[i]? = some a →
      ∃ b, l'[i]? = some b ∧ f a = .ok b := by
  intro l
  induction l with
  | nil => intro l' i a h hg; cases hg
  | cons x rest ih =>
    intro l' i a h hg
    simp only [mapE] at h
    cases hf : f x with
    | error e => rw [hf] at h; exact absurd h (by simp)
    | ok b =>
      rw [hf] at h
      cases hr : mapE f rest with
      | error e => rw [hr] at h; exact absurd h (by simp)
      | ok bs =>
        rw [hr] at h
        simp at h
        cases i with
        | zero =>
          simp at hg
          exact ⟨b, by simp [← h], hg ▸ hf⟩
        | succ j =>
          simp at hg
          rcases ih hr hg with ⟨b2, hb2, hfb2⟩
          exact ⟨b2, by simp [← h, hb2], hfb2⟩

theorem mapE_map_eq {α β γ : Type} {f : α → Except String β} {g : β → γ} {hh : α → γ} :
    ∀ {l : List α} {l' : List β},
      mapE f l = .ok l' → (∀ a b, f a = .ok b → g b = hh a) →
      l'.map g = l.map hh := by
  intro l
  induction l with
  | nil => intro l' h hc; simp [mapE] at h; simp [← h]
  | cons x rest ih =>
    intro l' h hc
    simp only [mapE] at h
    cases hf : f x with
    | error e => rw [hf] at h; exact absurd h (by simp)
    | ok b =>
      rw [hf] at h
      cases hr : mapE f rest with
      | error e => rw [hr] at h; exact absurd h (by simp)
      | ok bs =>
        rw [hr] at h
        simp at h
        rw [← h]
        simp [hc x b hf, ih hr hc]

theorem mapE_append {α β : Type} (f : α → Except String β) (l1 l2 : List α) :
    mapE f (l1 ++ l2) =
      (match mapE f l1 with
       | .error e => .error e
       | .ok b1 =>
         match mapE f l2 with
         | .error e => .error e
         | .ok b2 => .ok (b1 ++ b2)) := by
  induction l1 with
  | nil =>
    cases h2 : mapE f l2 <;> simp [mapE, h2]
  | cons x rest ih =>
    cases hf : f x <;> cases hr : mapE f rest <;> cases h2 : mapE f l2 <;>
      simp [mapE, hf, hr, h2, ih]

theorem foldE_append {σ α : Type} (f : σ → α → Except String σ) (acc : σ)
    (l1 l2 : List α) :
    foldE f acc (l1 ++ l2) =
      (match foldE f acc l1 with
       | .error e => .error e
       | .ok a2 => foldE f a2 l2) := by
  induction l1 generalizing acc with
  | nil => rfl
  | cons x rest ih =>
    simp only [List.cons_append, foldE]
    cases f acc x with
    | error e => rfl
    | ok acc2 => exact ih acc2

theorem foldE_ok_mem {σ α : Type} {f : σ → α → Except String σ} :
    ∀ {l : List α} {acc r : σ} {a : α},
      foldE f acc l = .ok r → a ∈ l → ∃ s s', f s a = .ok s' := by
  intro l
  induction l with
  | nil => intro acc r a h hm; cases hm
  | cons x rest ih =>
    intro acc r a h hm
    simp only [foldE] at h
    cases hf : f acc x with
    | error e => rw [hf] at h; exact absurd h (by simp)
    | ok acc2 =>
      rw [hf] at h
      rcases List.mem_cons.mp hm with he | hmem
      · exact ⟨acc, acc2, he ▸ hf⟩
      · exact ih h hmem

theorem mem_foldl_dedup {α : Type} [DecidableEq α] (a : α) :
    ∀ (l acc : List α),
      a ∈ l.foldl (fun acc x => if x ∈ acc then acc else acc ++ [x]) acc ↔
        a ∈ acc ∨ a ∈ l := by
  intro l
  induction l with
  | nil => intro acc; simp
  | cons x rest ih =>
    intro acc
    simp only [List.foldl_cons, ih]
    by_cases hx : x ∈ acc
    · simp only [if_pos hx]
      constructor
      · rintro (h | h)
        · exact Or.inl h
        · exact Or.inr (List.mem_cons_of_mem x h)
      · rintro (h | h)
        · exact Or.inl h
        · rcases List.mem_cons.mp h with he | hm
          · exact Or.inl (he ▸ hx)
          · exact Or.inr hm
    · simp only [if_neg hx, List.mem_append, List.mem_singleton, List.mem_cons]
      tauto

theorem mem_dedupFirst {α : Type} [DecidableEq α] (a : α) (l : List α) :
    a ∈ dedupFirst l ↔ a ∈ l := by
  unfold dedupFirst
  rw [mem_foldl_dedup]
  simp

theorem zip_fst_mem {α β : Type} {cv : α × β} :
    ∀ {cols : List α} {cells : List β}, cv ∈ cols.zip cells → cv.1 ∈ cols := by
  intro cols
  induction cols with
  | nil => intro cells h; cases h
  | cons c cs ih =>
    intro cells h
    cases cells with
    | nil => cases h
    | cons x xs =>
      rcases List.mem_cons.mp h with he | hm
      · rw [he]; exact List.mem_cons_self c cs
      · exact List.mem_cons_of_mem c (ih hm)

theorem zip_split {col : String} {v : Cell} :
    ∀ {cols : List String} {cells : List Cell},
      cols.Nodup → (col, v) ∈ cols.zip cells →
      ∃ L1 L2, cols.zip cells = L1 ++ (col, v) :: L2 ∧
        (∀ cv ∈ L1, cv.1 ≠ col) ∧ (∀ cv ∈ L2, cv.1 ≠ col) := by
  intro cols
  induction cols with
  | nil => intro cells hnd h; cases h
  | cons c cs ih =>
    intro cells hnd h
    cases cells with
    | nil => cases h
    | cons x xs =>
      rcases List.nodup_cons.mp hnd with ⟨hc, hcs⟩
      rcases List.mem_cons.mp h with he | hm
      · refine ⟨[], cs.zip xs, ?_, by simp, ?_⟩
        · simp at he
          simp [he.1, he.2]
        · intro cv hcv
          have h1 : cv.1 ∈ cs := zip_fst_mem hcv
          have h2 : col = c := congrArg Prod.fst he
          rw [← h2] at hc
          intro hcol
          exact hc (hcol ▸ h1)
      · rcases ih hcs hm with ⟨L1, L2, heq, h1, h2⟩
        have hcol : col ∈ cs := by
          have := zip_fst_mem hm
          simpa using this
        refine ⟨(c, x) :: L1, L2, by simp [heq], ?_, h2⟩
        intro cv hcv
        rcases List.mem_cons.mp hcv with hecv | hmcv
        · rw [hecv]
          intro hcc
          have hcc2 : c = col := hcc
          rw [hcc2] at hc
          exact hc hcol
        · exact h1 cv hmcv

theorem charInL_append (c : Char) (l1 l2 : List Char) :
    charInL c (l1 ++ l2) = (charInL c l1 || charInL c l2) := by
  induction l1 with
  | nil => simp [charInL]
  | cons x xs ih => simp [charInL, ih, Bool.or_assoc]

theorem strHasChar_bracket (a b : String) : strHasChar (a ++ "[" ++ b) '[' = true := by
  have h1 : (a ++ "[" ++ b).toList = a.toList ++ ("[" : String).toList ++ b.toList := by
    simp [String.toList, String.data_append]
  simp [strHasChar, h1, charInL_append]
  have h2 : ("[" : String).toList = ['['] := by decide
  simp [h2, charInL]

theorem processColumn_cases {m : List (String × List (String × String))}
    {ov : List (String × (String × String × String))} {d d' : PDict} {c : String} {v : Cell}
    (h : processColumn m ov d (c, v) = .ok d') :
    (v = Cell.na ∧ d' = d) ∨
    (v ≠ Cell.na ∧ hasSubStr c "other" = true ∧
      d' = dinsert (pySliceBefore c (pyFind c '['), c) v d) ∨
    (v ≠ Cell.na ∧ hasSubStr c "other" = false ∧ hasSubStr c "comment" = true ∧
      d' = dinsert (pyReplace (pyReplace c "comment" "") "[]" "", c) v d) ∨
    (v ≠ Cell.na ∧ hasSubStr c "other" = false ∧ hasSubStr c "comment" = false ∧
      c ∈ metadataCols ∧ d' = dinsert (c, "") v d) ∨
    (v ≠ Cell.na ∧ c ∉ metadataCols ∧
      ((∃ t n, d' = dinsert (c, "a") (Cell.int n) (dinsert (c, "a_text") (Cell.str t)
          (dinsert (c, "a_code") v d))) ∨
       (∃ t n, d' = dinsert (c, "a") (Cell.int n) (dinsert (c, "a_text") (Cell.str t) d)) ∨
       d' = dinsert (c, "a") v d ∨ d' = d)) := by
  by_cases hna : v = Cell.na
  · subst hna
    simp [processColumn] at h
    exact Or.inl ⟨rfl, h.symm⟩
  · by_cases hoth : hasSubStr c "other" = true
    · simp [processColumn, hna, hoth] at h
      exact Or.inr (Or.inl ⟨hna, hoth, h.symm⟩)
    · have hoth' : hasSubStr c "other" = false := by
        cases hh : hasSubStr c "other"
        · rfl
        · exact absurd hh hoth
      by_cases hcom : hasSubStr c "comment" = true
      · simp [processColumn, hna, hoth', hcom] at h
        exact Or.inr (Or.inr (Or.inl ⟨hna, hoth', hcom, h.symm⟩))
      · have hcom' : hasSubStr c "comment" = false := by
          cases hh : hasSubStr c "comment"
          · rfl
          · exact absurd hh hcom
        by_cases hmet : c ∈ metadataCols
        · simp [processColumn, hna, hoth', hcom', hmet] at h
          exact Or.inr (Or.inr (Or.inr (Or.inl ⟨hna, hoth', hcom', hmet, h.symm⟩)))
        · refine Or.inr (Or.inr (Or.inr (Or.inr ⟨hna, hmet, ?_⟩)))
          simp only [processColumn, hna, hoth', hcom', hmet] at h
          simp at h
          cases hov : lookupA c ov with
          | none => rw [hov] at h; exact absurd h (by simp)
          | some info =>
            rw [hov] at h
            dsimp only at h
            by_cases hT1 : info.2.1 = "List radio" ∨ info.2.1 = "List dropdown" ∨
                info.2.1 = "List with comment"
            · rw [if_pos hT1] at h
              cases hobt : obtain_answer_text c m (some v) with
              | error e => rw [hobt] at h; exact absurd h (by simp)
              | ok t =>
                rw [hobt] at h
                cases hcv2 : convert_answer_code_to_int v with
                | error e => rw [hcv2] at h; exact absurd h (by simp)
                | ok n =>
                  rw [hcv2] at h
                  simp at h
                  exact Or.inl ⟨t, n, h.symm⟩
            · rw [if_neg hT1] at h
              by_cases hT2 : info.2.1 = "Multiple choice" ∨
                  info.2.1 = "Multiple choice with comments"
              · rw [if_pos hT2] at h
                cases hobt : obtain_answer_text c m none with
                | error e => rw [hobt] at h; exact absurd h (by simp)
                | ok t =>
                  rw [hobt] at h
                  cases hcv2 : convert_answer_code_to_int v with
                  | error e => rw [hcv2] at h; exact absurd h (by simp)
                  | ok n =>
                    rw [hcv2] at h
                    simp at h
                    exact Or.inr (Or.inl ⟨t, n, h.symm⟩)
              · rw [if_neg hT2] at h
                by_cases hT3 : info.2.1 = "Ranking"
                · rw [if_pos hT3] at h
                  cases hobt : obtain_answer_text (pySliceBefore c (pyFind c '[')) m
                      (some v) with
                  | error e => rw [hobt] at h; exact absurd h (by simp)
                  | ok t =>
                    rw [hobt] at h
                    cases hcv2 : convert_answer_code_to_int v with
                    | error e => rw [hcv2] at h; exact absurd h (by simp)
                    | ok n =>
                      rw [hcv2] at h
                      simp at h
                      exact Or.inr (Or.inl ⟨t, n, h.symm⟩)
                · rw [if_neg hT3] at h
                  by_cases hT4 : info.2.1 = "Array"
                  · rw [if_pos hT4] at h
                    cases hobt : obtain_answer_text (pySliceBefore c (pyFind c '[')) m
                        (some v) with
                    | error e => rw [hobt] at h; exact absurd h (by simp)
                    | ok t =>
                      rw [hobt] at h
                      cases hcv2 : convert_answer_code_to_int v with
                      | error e => rw [hcv2] at h; exact absurd h (by simp)
                      | ok n =>
                        rw [hcv2] at h
                        simp at h
                        exact Or.inl ⟨t, n, h.symm⟩
                  · rw [if_neg hT4] at h
                    by_cases hT5 : info.2.1 = "Long free text" ∨ info.2.1 = "Short free text"
                    · rw [if_pos hT5] at h
                      simp at h
                      exact Or.inr (Or.inr (Or.inl h.symm))
                    · rw [if_neg hT5] at h
                      simp at h
                      exact Or.inr (Or.inr (Or.inr h.symm))

theorem processColumn_id {m : List (String × List (String × String))}
    {ov : List (String × (String × String × String))} {d d' : PDict} {c : String} {v : Cell}
    (h : processColumn m ov d (c, v) = .ok d') :
    lookupA ("id", "") d' =
      if c = "id" ∧ v ≠ Cell.na then some v else lookupA ("id", "") d := by
  rcases processColumn_cases h with ⟨hna, hd⟩ | ⟨hna, hoth, hd⟩ | ⟨hna, _, hcom, hd⟩ |
    ⟨hna, _, _, hmet, hd⟩ | ⟨hna, hmet, hrest⟩
  · subst hna hd
    simp
  · have hc0 : c ≠ "" := by
      intro hc; rw [hc] at hoth; exact absurd hoth (by decide)
    have hcid : c ≠ "id" := by
      intro hc; rw [hc] at hoth; exact absurd hoth (by decide)
    rw [hd, lookupA_dinsert_ne]
    · rw [if_neg]; rintro ⟨h1, _⟩; exact hcid h1
    · intro he
      exact hc0 (congrArg Prod.snd he).symm
  · have hc0 : c ≠ "" := by
      intro hc; rw [hc] at hcom; exact absurd hcom (by decide)
    have hcid : c ≠ "id" := by
      intro hc; rw [hc] at hcom; exact absurd hcom (by decide)
    rw [hd, lookupA_dinsert_ne]
    · rw [if_neg]; rintro ⟨h1, _⟩; exact hcid h1
    · intro he
      exact hc0 (congrArg Prod.snd he).symm
  · by_cases hc : c = "id"
    · subst hc
      rw [hd, lookupA_dinsert_self, if_pos ⟨rfl, hna⟩]
    · rw [hd, lookupA_dinsert_ne]
      · rw [if_neg]; rintro ⟨h1, _⟩; exact hc h1
      · intro he
        exact hc (congrArg Prod.fst he).symm
  · have hcid : c ≠ "id" := by
      intro hc; rw [hc] at hmet; exact hmet (by simp [metadataCols])
    have hne : ∀ x : String, ("id", "") ≠ (c, x) := by
      intro x he
      exact hcid (congrArg Prod.fst he).symm
    rcases hrest with ⟨t, n, hd⟩ | ⟨t, n, hd⟩ | hd | hd
    · rw [hd, lookupA_dinsert_ne _ _ (hne _), lookupA_dinsert_ne _ _ (hne _),
        lookupA_dinsert_ne _ _ (hne _), if_neg]
      rintro ⟨h1, _⟩; exact hcid h1
    · rw [hd, lookupA_dinsert_ne _ _ (hne _), lookupA_dinsert_ne _ _ (hne _), if_neg]
      rintro ⟨h1, _⟩; exact hcid h1
    · rw [hd, lookupA_dinsert_ne _ _ (hne _), if_neg]
      rintro ⟨h1, _⟩; exact hcid h1
    · rw [hd, if_neg]
      rintro ⟨h1, _⟩; exact hcid h1

theorem processColumn_pres {m : List (String × List (String × String))}
    {ov : List (String × (String × String × String))} {d d' : PDict}
    {col c : String} {v : Cell} {x : String}
    (h : processColumn m ov d (c, v) = .ok d') (hne : c ≠ col)
    (hx : x = "a_code" ∨ x = "a_text" ∨ x = "a") :
    lookupA (col, x) d' = lookupA (col, x) d := by
  have hfst : ∀ y : String, (col, x) ≠ (c, y) := by
    intro y he
    exact hne (congrArg Prod.fst he).symm
  rcases processColumn_cases h with ⟨_, hd⟩ | ⟨_, hoth, hd⟩ | ⟨_, _, hcom, hd⟩ |
    ⟨_, _, _, _, hd⟩ | ⟨_, _, hrest⟩
  · rw [hd]
  · rw [hd, lookupA_dinsert_ne]
    intro he
    have hxc : x = c := congrArg Prod.snd he
    rw [← hxc] at hoth
    rcases hx with h1 | h1 | h1 <;> rw [h1] at hoth <;> exact absurd hoth (by decide)
  · rw [hd, lookupA_dinsert_ne]
    intro he
    have hxc : x = c := congrArg Prod.snd he
    rw [← hxc] at hcom
    rcases hx with h1 | h1 | h1 <;> rw [h1] at hcom <;> exact absurd hcom (by decide)
  · rw [hd, lookupA_dinsert_ne _ _ (hfst _)]
  · rcases hrest with ⟨t, n, hd⟩ | ⟨t, n, hd⟩ | hd | hd
    · rw [hd, lookupA_dinsert_ne _ _ (hfst _), lookupA_dinsert_ne _ _ (hfst _),
        lookupA_dinsert_ne _ _ (hfst _)]
    · rw [hd, lookupA_dinsert_ne _ _ (hfst _), lookupA_dinsert_ne _ _ (hfst _)]
    · rw [hd, lookupA_dinsert_ne _ _ (hfst _)]
    · rw [hd]

theorem foldE_processColumn_id {m : List (String × List (String × String))}
    {ov : List (String × (String × String × String))} :
    ∀ (L : List (String × Cell)) (d0 d : PDict),
      foldE (processColumn m ov) d0 L = .ok d →
      lookupA ("id", "") d = idAcc L (lookupA ("id", "") d0) := by
  intro L
  induction L with
  | nil =>
    intro d0 d h
    simp [foldE] at h
    simp [idAcc, ← h]
  | cons cv rest ih =>
    intro d0 d h
    obtain ⟨c, v⟩ := cv
    simp only [foldE] at h
    cases hst : processColumn m ov d0 (c, v) with
    | error e => rw [hst] at h; exact absurd h (by simp)
    | ok d1 =>
      rw [hst] at h
      have hid := processColumn_id hst
      have hacc : idAcc ((c, v) :: rest) (lookupA ("id", "") d0) =
          idAcc rest (if c = "id" ∧ v ≠ Cell.na then some v
            else lookupA ("id", "") d0) := by
        simp [idAcc]
      rw [hacc, ← hid]
      exact ih d1 d h

theorem foldE_processColumn_pres {m : List (String × List (String × String))}
    {ov : List (String × (String × String × String))} {col x : String}
    (hx : x = "a_code" ∨ x = "a_text" ∨ x = "a") :
    ∀ (L : List (String × Cell)) (d0 d : PDict),
      (∀ cv ∈ L, cv.1 ≠ col) →
      foldE (processColumn m ov) d0 L = .ok d →
      lookupA (col, x) d = lookupA (col, x) d0 := by
  intro L
  induction L with
  | nil =>
    intro d0 d _ h
    simp [foldE] at h
    rw [← h]
  | cons cv rest ih =>
    intro d0 d hcol h
    obtain ⟨c, v⟩ := cv
    simp only [foldE] at h
    cases hst : processColumn m ov d0 (c, v) with
    | error e => rw [hst] at h; exact absurd h (by simp)
    | ok d1 =>
      rw [hst] at h
      have hc : c ≠ col := hcol (c, v) (List.mem_cons_self _ _)
      have h1 := processColumn_pres hst hc hx
      rw [ih d1 d (fun cv2 hm => hcol cv2 (List.mem_cons_of_mem _ hm)) h, h1]

theorem idAcc_no_id : ∀ {L : List (String × Cell)} {o : Option Cell},
    (∀ cv ∈ L, cv.1 ≠ "id") → idAcc L o = o := by
  intro L
  induction L with
  | nil => intro o _; rfl
  | cons cv rest ih =>
    intro o h
    have hc : cv.1 ≠ "id" := h cv (List.mem_cons_self _ _)
    have : idAcc (cv :: rest) o = idAcc rest o := by
      simp [idAcc, hc]
    rw [this]
    exact ih (fun cv2 hm => h cv2 (List.mem_cons_of_mem _ hm))

theorem idAcc_zip :
    ∀ (cols : List String) (cells : List Cell), cols.Nodup →
      (idAcc (cols.zip cells) none).getD Cell.na = rowIdCell cols cells := by
  intro cols
  induction cols with
  | nil => intro cells _; simp [idAcc, rowIdCell, idxOfCol]
  | cons c cs ih =>
    intro cells hnd
    rcases List.nodup_cons.mp hnd with ⟨hc, hcs⟩
    cases cells with
    | nil =>
      cases hidx : idxOfCol "id" (c :: cs) <;>
        simp [idAcc, rowIdCell, hidx, List.getD]
    | cons y ys =>
      by_cases hcid : c = "id"
      · subst hcid
        have hnone : ∀ cv ∈ cs.zip ys, cv.1 ≠ "id" := by
          intro cv hcv heq
          apply hc
          rw [← heq]
          exact zip_fst_mem hcv
        have hstep : idAcc (("id", y) :: cs.zip ys) none =
            idAcc (cs.zip ys) (if y ≠ Cell.na then some y else none) := by
          simp [idAcc]
        rw [List.zip_cons_cons, hstep, idAcc_no_id hnone]
        by_cases hyna : y = Cell.na
        · subst hyna
          simp [rowIdCell, idxOfCol, List.getD]
        · simp [hyna, rowIdCell, idxOfCol, List.getD]
      · have hstep : idAcc ((c, y) :: cs.zip ys) none = idAcc (cs.zip ys) none := by
          simp [idAcc, hcid]
        rw [List.zip_cons_cons, hstep, ih ys hcs]
        cases hidx : idxOfCol "id" cs <;>
          simp [rowIdCell, idxOfCol, hcid, hidx, List.getD]

theorem strHasChar_merged (t s u : String) : strHasChar (t ++ "[" ++ s ++ u) '[' = true := by
  have h1 : t ++ "[" ++ s ++ u = t ++ "[" ++ (s ++ u) := by
    rw [String.append_assoc]
  rw [h1]
  exact strHasChar_bracket t (s ++ u)

theorem create_overview_cons (clean : String → String) (q : Question) (qs : List Question) :
    create_question_overview_df clean (q :: qs) =
      (match overview_entries clean q with
       | .error e => .error e
       | .ok e1 =>
         match create_question_overview_df clean qs with
         | .error e => .error e
         | .ok rest => .ok (e1 ++ rest)) := by
  cases hq : overview_entries clean q <;> cases hqs : mapE (overview_entries clean) qs <;>
    simp [create_question_overview_df, mapE, hq, hqs]

theorem overview_entries_keys {clean : String → String} {q : Question}
    {e1 : List (String × (String × String × String))}
    (h : overview_entries clean q = .ok e1) :
    ∀ kv ∈ e1, kv.1 = q.title ∨ strHasChar kv.1 '[' = true := by
  unfold overview_entries at h
  by_cases h1 : q.question_type = "Multiple choice" ∨
      q.question_type = "Multiple choice with comments" ∨ q.question_type = "Array"
  · rw [if_pos h1] at h
    cases hs : getSub0 q with
    | none => rw [hs] at h; exact absurd h (by simp)
    | some sqs =>
      rw [hs] at h
      simp at h
      intro kv hkv
      rw [← h] at hkv
      simp at hkv
      rcases hkv with ⟨sq, _, hkv⟩
      right
      rw [← hkv]
      exact strHasChar_merged q.title sq.title "]"
  · rw [if_neg h1] at h
    by_cases h2 : q.question_type = "Ranking"
    · rw [if_pos h2] at h
      cases hs : getAns0 q with
      | none => rw [hs] at h; exact absurd h (by simp)
      | some ans =>
        rw [hs] at h
        simp at h
        intro kv hkv
        rw [← h] at hkv
        simp at hkv
        rcases hkv with ⟨a, _, hkv⟩
        right
        rw [← hkv]
        exact strHasChar_merged q.title a.sortorder "]"
    · rw [if_neg h2] at h
      simp at h
      intro kv hkv
      rw [← h] at hkv
      simp at hkv
      left
      rw [hkv]

theorem overview_lookup_plain {clean : String → String} :
    ∀ {qs : List Question} {ov : List (String × (String × String × String))} {q : Question},
      create_question_overview_df clean qs = .ok ov → q ∈ qs →
      (qs.map (fun qq => qq.title)).Nodup →
      strHasChar q.title '[' = false →
      ¬(q.question_type = "Multiple choice" ∨
        q.question_type = "Multiple choice with comments" ∨ q.question_type = "Array") →
      q.question_type ≠ "Ranking" →
      lookupA q.title ov = some (clean q.question, q.question_type, q.qid) := by
  intro qs
  induction qs with
  | nil => intro ov q _ hm; cases hm
  | cons qh qt ih =>
    intro ov q hcr hm hnd hbr hT hR
    rw [create_overview_cons] at hcr
    cases he1 : overview_entries clean qh with
    | error e => rw [he1] at hcr; exact absurd hcr (by simp)
    | ok e1 =>
      rw [he1] at hcr
      dsimp only at hcr
      cases hrest : create_question_overview_df clean qt with
      | error e => rw [hrest] at hcr; exact absurd hcr (by simp)
      | ok rest =>
        rw [hrest] at hcr
        simp at hcr
        rw [List.map_cons] at hnd
        rcases List.nodup_cons.mp hnd with ⟨hnh, hnt⟩
        rcases List.mem_cons.mp hm with he | hmem
        · subst he
          unfold overview_entries at he1
          rw [if_neg hT, if_neg hR] at he1
          simp at he1
          rw [← hcr, ← he1, lookupA_append]
          simp [lookupA]
        · have hnone : lookupA q.title e1 = none := by
            apply lookupA_eq_none
            intro kv hkv
            rcases overview_entries_keys he1 kv hkv with hk | hk
            · rw [hk]
              intro hcontra
              apply hnh
              rw [hcontra]
              exact List.mem_map_of_mem _ hmem
            · intro hcontra
              rw [hcontra] at hk
              rw [hbr] at hk
              exact absurd hk (by decide)
          rw [← hcr, lookupA_append, hnone]
          exact ih hrest hmem hnt hbr hT hR

theorem mapping_lookup :
    ∀ {qs : List Question} {q : Question}, q ∈ qs →
      (qs.map (fun qq => qq.title)).Nodup →
      lookupA q.title (qs.map (fun q2 => (q2.title, question_answer_map q2))) =
        some (question_answer_map q) := by
  intro qs
  induction qs with
  | nil => intro q hm; cases hm
  | cons qh qt ih =>
    intro q hm hnd
    rw [List.map_cons] at hnd
    rcases List.nodup_cons.mp hnd with ⟨hnh, hnt⟩
    rcases List.mem_cons.mp hm with he | hmem
    · subst he
      simp [lookupA]
    · have hne : qh.title ≠ q.title := by
        intro hcontra
        apply hnh
        rw [hcontra]
        exact List.mem_map_of_mem _ hmem
      simp only [List.map_cons, lookupA, if_neg hne]
      exact ih hmem hnt

theorem filter_ok_cols {df df' : Df} {lp : Int}
    (h : filter_completed_questions df lp = .ok df') : df'.cols = df.cols := by
  unfold filter_completed_questions at h
  cases hidx : idxOfCol "lastpage" df.cols with
  | none => rw [hidx] at h; exact absurd h (by simp)
  | some i =>
    rw [hidx] at h
    simp at h
    rw [← h]

theorem dataStage_cols {s : Survey} {b : Bool} {df' : Df}
    (h : (if b then filter_completed_questions s.dataframe 39
          else Except.ok s.dataframe) = .ok df') :
    df'.cols = s.dataframe.cols := by
  cases b with
  | false =>
    simp at h
    rw [← h]
  | true =>
    simp at h
    exact filter_ok_cols h

theorem extract_index_ok {dicts : List PDict} {idx : List Cell}
    (h : extract_index dicts = .ok idx) :
    idx = dicts.map (fun d => (lookupA ("id", "") d).getD Cell.na) := by
  unfold extract_index at h
  by_cases h1 : dicts.any (fun d => d.any (fun kv => decide (kv.1.1 = "id"))) = true
  · rw [if_pos h1] at h
    by_cases h2 : dicts.all
        (fun d => d.all (fun kv => !(decide (kv.1.1 = "id")) || decide (kv.1.2 = ""))) = true
    · rw [if_pos h2] at h
      simp at h
      exact h.symm
    · rw [if_neg h2] at h
      exact absurd h (by simp)
  · rw [if_neg h1] at h
    exact absurd h (by simp)

/-- C4: for every survey and every value of completed_only, running
process_user_input with fill_na true returns the same table as with fill_na
false, because the parameter is never read; and a missing answer cell writes
no entry at all, so missing answers stay missing rather than becoming 0. -/
theorem c4_theorem :
    (∀ (clean : String → String) (s : Survey) (b : Bool),
      process_user_input clean s b true = process_user_input clean s b false) ∧
    (∀ (m : List (String × List (String × String)))
       (ov : List (String × (String × String × String))) (d : PDict) (col : String),
      processColumn m ov d (col, Cell.na) = .ok d) := by
  constructor
  · intro clean s b
    rfl
  · intro m ov d col
    simp [processColumn]

/-- C7: process_user_input is deterministic: two runs on equal survey
objects with equal parameters return equal tables.  In the embedding the
whole pass is a pure function of the survey and the flags. -/
theorem c7_theorem (clean : String → String) (s1 s2 : Survey) (b1 b2 f1 f2 : Bool)
    (hs : s1 = s2) (hb : b1 = b2) (hf : f1 = f2) :
    process_user_input clean s1 b1 f1 = process_user_input clean s2 b2 f2 := by
  rw [hs, hb, hf]

/-- C7 witness at a concrete survey. -/
theorem c7_witness :
    process_user_input (fun t => t) exSurvey true true =
      process_user_input (fun t => t) exSurvey true true :=
  c7_theorem (fun t => t) exSurvey exSurvey true true true true rfl rfl rfl

/-- C9: convert_answer_code_to_int raises on every non-string cell, maps the
string Y to 1, maps every other string with at least one digit to the
integer formed by its digit characters in order, and raises on every other
string without digits. -/
theorem c9_theorem :
    (∀ n : Int, ∃ e, convert_answer_code_to_int (Cell.int n) = .error e) ∧
    (∃ e, convert_answer_code_to_int Cell.na = .error e) ∧
    convert_answer_code_to_int (Cell.str "Y") = .ok 1 ∧
    (∀ s : String, s ≠ "Y" → s.toList.filter Char.isDigit ≠ [] →
      convert_answer_code_to_int (Cell.str s) =
        .ok (pyIntOfDigits (s.toList.filter Char.isDigit))) ∧
    (∀ s : String, s ≠ "Y" → s.toList.filter Char.isDigit = [] →
      ∃ e, convert_answer_code_to_int (Cell.str s) = .error e) := by
  refine ⟨fun n => ⟨_, rfl⟩, ⟨_, rfl⟩, rfl, ?_, ?_⟩
  · intro s hs hd
    simp only [convert_answer_code_to_int]
    rw [if_neg hs, if_neg hd]
  · intro s hs hd
    refine ⟨"ValueError: invalid literal for int with base 10", ?_⟩
    simp only [convert_answer_code_to_int]
    rw [if_neg hs, if_pos hd]

/-- C9 witness: the multiple-choice code SQ003 parses to 3, and the string N
raises. -/
theorem c9_witness :
    convert_answer_code_to_int (Cell.str "SQ003") = .ok 3 ∧
    (∃ e, convert_answer_code_to_int (Cell.str "N") = .error e) := by
  constructor
  · have h := c9_theorem.2.2.2.1 "SQ003" (by decide) (by decide)
    rw [h]
    rfl
  · exact c9_theorem.2.2.2.2 "N" (by decide) (by decide)

/-- C10: calculate_spearman_corr and calculate_kendall_corr print the
correlated decision exactly when the computed p-value is at most 0.05 and
the uncorrelated decision exactly when it exceeds 0.05. -/
theorem c10_theorem (sp kd : List ℚ → List ℚ → ℚ × ℚ) (d1 d2 : List ℚ) :
    (CorrLine.correlated (sp d1 d2).2 ∈ calculate_spearman_corr sp d1 d2 ↔
      (sp d1 d2).2 ≤ 1 / 20) ∧
    (CorrLine.uncorrelated (sp d1 d2).2 ∈ calculate_spearman_corr sp d1 d2 ↔
      1 / 20 < (sp d1 d2).2) ∧
    (CorrLine.correlated (kd d1 d2).2 ∈ calculate_kendall_corr kd d1 d2 ↔
      (kd d1 d2).2 ≤ 1 / 20) ∧
    (CorrLine.uncorrelated (kd d1 d2).2 ∈ calculate_kendall_corr kd d1 d2 ↔
      1 / 20 < (kd d1 d2).2) := by
  have key : ∀ r : ℚ × ℚ,
      (CorrLine.correlated r.2 ∈
          (if r.2 > 1 / 20 then [CorrLine.coefLine r.1, CorrLine.uncorrelated r.2]
           else [CorrLine.coefLine r.1, CorrLine.correlated r.2]) ↔ r.2 ≤ 1 / 20) ∧
      (CorrLine.uncorrelated r.2 ∈
          (if r.2 > 1 / 20 then [CorrLine.coefLine r.1, CorrLine.uncorrelated r.2]
           else [CorrLine.coefLine r.1, CorrLine.correlated r.2]) ↔ 1 / 20 < r.2) := by
    intro r
    by_cases h : r.2 > 1 / 20
    · rw [if_pos h]
      refine ⟨⟨?_, ?_⟩, ⟨?_, ?_⟩⟩
      · intro hm
        simp at hm
      · intro hle
        exact absurd hle (not_le.mpr h)
      · intro _
        exact h
      · intro _
        exact List.mem_cons_of_mem _ (List.mem_singleton.mpr rfl)
    · have hle : r.2 ≤ 1 / 20 := le_of_not_lt h
      rw [if_neg h]
      refine ⟨⟨?_, ?_⟩, ⟨?_, ?_⟩⟩
      · intro _
        exact hle
      · intro _
        exact List.mem_cons_of_mem _ (List.mem_singleton.mpr rfl)
      · intro hm
        simp at hm
      · intro hlt
        exact absurd hlt h
  exact ⟨(key (sp d1 d2)).1, (key (sp d1 d2)).2, (key (kd d1 d2)).1, (key (kd d1 d2)).2⟩

/-- C5: the claim states calculate_chi_square prints both decisions when all
cells are at least 5, but the source concatenates a str with the expected
frequency ndarray right after running the test, raising a TypeError before
any decision line: at the all-fives table the code prints only the dof line
and raises, while a table with a cell below 5 correctly gets only the
warning and no test. -/
theorem c5_theorem :
    calculate_chi_square exChi2 [[5, 5], [5, 5]] =
      (["dof=1"], some "TypeError: can only concatenate str (not ndarray) to str") ∧
    calculate_chi_square exChi2 [[4, 5], [5, 5]] =
      (["For Chi-Square to make sense, the values in each cell need to be >=5!"], none) := by
  constructor <;> rfl

/-- C8: a question of unhandled type contributes no columns to the scheme
and only a printed message, and a recognised response column whose looked-up
type matches no handled case is skipped silently. -/
theorem c8_theorem (q : Question) (qs1 qs2 : List Question)
    (m : List (String × List (String × String)))
    (ov : List (String × (String × String × String))) (d : PDict) (col : String) (v : Cell)
    (info : String × String × String) :
    (q.question_type ∉ handledConvertTypes →
      convert_questions_to_df (qs1 ++ q :: qs2) = convert_questions_to_df (qs1 ++ qs2) ∧
      convert_questions_log (qs1 ++ q :: qs2) =
        convert_questions_log qs1 ++
          ("error, type not known  " ++ q.question_type) :: convert_questions_log qs2) ∧
    (v ≠ Cell.na → hasSubStr col "other" = false → hasSubStr col "comment" = false →
      col ∉ metadataCols → lookupA col ov = some info →
      info.2.1 ∉ handledConvertTypes →
      processColumn m ov d (col, v) = .ok d) := by
  constructor
  · intro hq
    have hq2 := hq
    unfold handledConvertTypes at hq2
    simp at hq2
    obtain ⟨h1, h2, h3, h4, h5, h6, h7, h8, h9⟩ := hq2
    have hfr : question_frames q = .ok [] := by
      simp [question_frames, h1, h2, h3, h4, h5, h6, h7, h8, h9]
    constructor
    · cases hm1 : mapE question_frames qs1 with
      | error e =>
        have hL : mapE question_frames (qs1 ++ q :: qs2) = .error e := by
          rw [mapE_append, hm1]
        have hR : mapE question_frames (qs1 ++ qs2) = .error e := by
          rw [mapE_append, hm1]
        unfold convert_questions_to_df
        rw [hL, hR]
      | ok b1 =>
        cases hm2 : mapE question_frames qs2 with
        | error e =>
          have hmid : mapE question_frames (q :: qs2) = .error e := by
            simp [mapE, hfr, hm2]
          have hL : mapE question_frames (qs1 ++ q :: qs2) = .error e := by
            rw [mapE_append, hm1, hmid]
          have hR : mapE question_frames (qs1 ++ qs2) = .error e := by
            rw [mapE_append, hm1, hm2]
          unfold convert_questions_to_df
          rw [hL, hR]
        | ok b2 =>
          have hmid : mapE question_frames (q :: qs2) = .ok ([] :: b2) := by
            simp [mapE, hfr, hm2]
          have hL : mapE question_frames (qs1 ++ q :: qs2) = .ok (b1 ++ [] :: b2) := by
            rw [mapE_append, hm1, hmid]
          have hR : mapE question_frames (qs1 ++ qs2) = .ok (b1 ++ b2) := by
            rw [mapE_append, hm1, hm2]
          unfold convert_questions_to_df
          rw [hL, hR]
          dsimp only
          have hflat : (b1 ++ [] :: b2).flatten = (b1 ++ b2).flatten := by
            simp
          rw [hflat]
    · simp only [convert_questions_log, List.filterMap_append, List.filterMap_cons]
      rw [if_neg hq]
  · intro hv hoth hcom hmet hov hinfo
    unfold handledConvertTypes at hinfo
    simp at hinfo
    obtain ⟨g1, g2, g3, g4, g5, g6, g7, g8, g9⟩ := hinfo
    simp [processColumn, hv, hoth, hcom, hmet, hov, g1, g2, g3, g4, g5, g6, g7, g8, g9]

/-- C8 witness at concrete inputs: an unhandled Dual scale question is
dropped from the scheme with only a log line, and a recognised column of an
unhandled type is skipped with no entry and no error. -/
theorem c8_witness :
    (convert_questions_to_df ([exListQ] ++ exUnknownQ :: []) =
        convert_questions_to_df ([exListQ] ++ []) ∧
      convert_questions_log ([exListQ] ++ exUnknownQ :: []) =
        convert_questions_log [exListQ] ++
          ("error, type not known  " ++ exUnknownQ.question_type) ::
            convert_questions_log []) ∧
    processColumn [] [("XT1", ("xx", "Dual scale", "9"))] [] ("XT1", Cell.str "A1") =
      .ok [] := by
  have h := c8_theorem exUnknownQ [exListQ] [] [] [("XT1", ("xx", "Dual scale", "9"))] []
      "XT1" (Cell.str "A1") ("xx", "Dual scale", "9")
  exact ⟨h.1 (by decide),
    h.2 (by decide) (by decide) (by decide) (by decide) rfl (by decide)⟩

theorem question_frames_spec {q : Question}
    (hH : q.question_type ∈ handledConvertTypes)
    (hsub : (q.question_type = "Multiple choice" ∨
             q.question_type = "Multiple choice with comments" ∨
             q.question_type = "Array") → (getSub0 q).isSome)
    (hans : q.question_type = "Ranking" → (getAns0 q).isSome) :
    ∃ fr, question_frames q = .ok fr ∧ fr.flatten = specColsQ q := by
  unfold handledConvertTypes at hH
  simp at hH
  rcases hH with h | h | h | h | h | h | h | h | h
  · refine ⟨[[(q.title, "a_code"), (q.title, "a_text"), (q.title, "a")]], ?_, ?_⟩
    · simp [question_frames, h]
    · simp [specColsQ, h]
  · refine ⟨[[(q.title, "a_code"), (q.title, "a_text"), (q.title, "a")]], ?_, ?_⟩
    · simp [question_frames, h]
    · simp [specColsQ, h]
  · have hS := hsub (Or.inl h)
    cases hs : getSub0 q with
    | none => rw [hs] at hS; exact absurd hS (by simp)
    | some sqs =>
      refine ⟨sqs.map (fun sq =>
          [(q.title ++ "[" ++ sq.title ++ "]", "a_text"),
           (q.title ++ "[" ++ sq.title ++ "]", "a")]), ?_, ?_⟩
      · simp [question_frames, h, hs]
      · simp [specColsQ, h, hs]
  · refine ⟨[[(q.title, "a_code"), (q.title, "a_text"), (q.title, "a"),
        (q.title, q.title ++ "[comment]")]], ?_, ?_⟩
    · simp [question_frames, h]
    · simp [specColsQ, h]
  · have hS := hsub (Or.inr (Or.inl h))
    cases hs : getSub0 q with
    | none => rw [hs] at hS; exact absurd hS (by simp)
    | some sqs =>
      refine ⟨sqs.map (fun sq =>
          [(q.title ++ "[" ++ sq.title ++ "]", "a_text"),
           (q.title ++ "[" ++ sq.title ++ "]", "a"),
           (q.title ++ "[" ++ sq.title ++ "]",
             q.title ++ "[" ++ sq.title ++ "comment]")]), ?_, ?_⟩
      · simp [question_frames, h, hs]
      · simp [specColsQ, h, hs]
  · have hS := hans h
    cases hs : getAns0 q with
    | none => rw [hs] at hS; exact absurd hS (by simp)
    | some ans =>
      refine ⟨ans.map (fun a =>
          [(q.title ++ "[" ++ a.sortorder ++ "]", "a"),
           (q.title ++ "[" ++ a.sortorder ++ "]", "a_text")]), ?_, ?_⟩
      · simp [question_frames, h, hs]
      · simp [specColsQ, h, hs]
  · have hS := hsub (Or.inr (Or.inr h))
    cases hs : getSub0 q with
    | none => rw [hs] at hS; exact absurd hS (by simp)
    | some sqs =>
      refine ⟨sqs.map (fun sq =>
          [(q.title ++ "[" ++ sq.title ++ "]", "a_code"),
           (q.title ++ "[" ++ sq.title ++ "]", "a_text"),
           (q.title ++ "[" ++ sq.title ++ "]", "a")]), ?_, ?_⟩
      · simp [question_frames, h, hs]
      · simp [specColsQ, h, hs]
  · refine ⟨[[(q.title, "a")]], ?_, ?_⟩
    · simp [question_frames, h]
    · simp [specColsQ, h]
  · refine ⟨[[(q.title, "a")]], ?_, ?_⟩
    · simp [question_frames, h]
    · simp [specColsQ, h]

theorem convert_spec :
    ∀ {qs : List Question},
      (∀ q ∈ qs, q.question_type ∈ handledConvertTypes) →
      (∀ q ∈ qs, (q.question_type = "Multiple choice" ∨
        q.question_type = "Multiple choice with comments" ∨
        q.question_type = "Array") → (getSub0 q).isSome) →
      (∀ q ∈ qs, q.question_type = "Ranking" → (getAns0 q).isSome) →
      ∃ FL, mapE question_frames qs = .ok FL ∧ FL.flatten.flatten = specCols qs := by
  intro qs
  induction qs with
  | nil => intro _ _ _; exact ⟨[], rfl, rfl⟩
  | cons qh qt ih =>
    intro hH hsub hans
    rcases question_frames_spec (hH qh (List.mem_cons_self _ _))
        (hsub qh (List.mem_cons_self _ _)) (hans qh (List.mem_cons_self _ _)) with
      ⟨fr, hfr, hfl⟩
    rcases ih (fun q hq => hH q (List.mem_cons_of_mem _ hq))
        (fun q hq => hsub q (List.mem_cons_of_mem _ hq))
        (fun q hq => hans q (List.mem_cons_of_mem _ hq)) with ⟨FL, hFL, hFf⟩
    refine ⟨fr :: FL, ?_, ?_⟩
    · simp [mapE, hfr, hFL]
    · have hcons : specCols (qh :: qt) = specColsQ qh ++ specCols qt := by
        simp [specCols]
      rw [List.flatten_cons, List.flatten_append, hfl, hFf, hcons]

/-- C1 (amended): for every survey whose questions all have handled types,
whose subquestion and answer dictionaries are present where the handled type
requires them, and which generates at least one column, the conversion
returns a table with zero rows whose two-level column labels are exactly the
per-type entries the claim lists.  The nonemptiness condition is forced by
the counterexample: pandas concat raises on an empty frame list. -/
theorem c1_theorem (qs : List Question)
    (hH : ∀ q ∈ qs, q.question_type ∈ handledConvertTypes)
    (hsub : ∀ q ∈ qs, (q.question_type = "Multiple choice" ∨
      q.question_type = "Multiple choice with comments" ∨
      q.question_type = "Array") → (getSub0 q).isSome)
    (hans : ∀ q ∈ qs, q.question_type = "Ranking" → (getAns0 q).isSome)
    (hne : specCols qs ≠ []) :
    ∃ df, convert_questions_to_df qs = .ok df ∧ df.rows = [] ∧
      ∀ c, c ∈ df.cols ↔ c ∈ specCols qs := by
  rcases convert_spec hH hsub hans with ⟨FL, hFL, hflat⟩
  have hframes : FL.flatten ≠ [] := by
    intro h0
    apply hne
    rw [← hflat, h0]
    rfl
  refine ⟨{ cols := dedupFirst FL.flatten.flatten, rows := [] }, ?_, rfl, ?_⟩
  · unfold convert_questions_to_df
    rw [hFL]
    dsimp only
    rw [if_neg hframes]
  · intro c
    rw [mem_dedupFirst, hflat]

/-- C1 witness at a concrete one-question survey. -/
theorem c1_witness :
    ∃ df, convert_questions_to_df [exListQ] = .ok df ∧ df.rows = [] ∧
      ∀ c, c ∈ df.cols ↔ c ∈ specCols [exListQ] :=
  c1_theorem [exListQ] (by decide) (by decide) (by decide) (by decide)

/-- C1 counterexample: the empty survey has all its questions of handled
types vacuously, yet convert_questions_to_df does not return a table at all:
pandas concat of the empty frame list raises a ValueError. -/
theorem c1_counterexample :
    (∀ q ∈ ([] : List Question), q.question_type ∈ handledConvertTypes) ∧
    ∀ df, convert_questions_to_df ([] : List Question) ≠ .ok df := by
  constructor
  · intro q hq
    cases hq
  · intro df h
    have hev : convert_questions_to_df ([] : List Question) =
        .error "ValueError: No objects to concatenate" := rfl
    rw [hev] at h
    cases h

/-- C3 (amended): for every response column name carrying a non-missing
value in a retained (completion-filtered) respondent row, not one of the
seven metadata columns, containing neither other nor comment, and not a
column of the question overview table, process_user_input raises and
returns no result table.  The retained-row condition is forced by the
counterexample: a value sitting only in a filtered-out row is never
visited. -/
theorem c3_theorem (clean : String → String) (s : Survey) (b f : Bool) (df' : Df)
    (r : List Cell) (col : String) (v : Cell)
    (hdata : (if b then filter_completed_questions s.dataframe 39
              else Except.ok s.dataframe) = .ok df')
    (hr : r ∈ df'.rows) (hcv : (col, v) ∈ df'.cols.zip r) (hv : v ≠ Cell.na)
    (hoth : hasSubStr col "other" = false) (hcom : hasSubStr col "comment" = false)
    (hmet : col ∉ metadataCols)
    (hov : ∀ ov, create_question_overview_df clean s.questions = .ok ov →
      lookupA col ov = none) :
    ∃ e, process_user_input clean s b f = .error e := by
  unfold process_user_input
  cases hconv : convert_questions_to_df s.questions with
  | error e =>
    exact ⟨e, rfl⟩
  | ok scheme =>
    dsimp only
    rw [hdata]
    dsimp only
    have hrowErr : ∀ res, processRow clean s (make_answer_code_to_text_mapping s)
        df'.cols r ≠ .ok res := by
      intro res hres
      unfold processRow at hres
      cases hcr : create_question_overview_df clean s.questions with
      | error e => rw [hcr] at hres; exact absurd hres (by simp)
      | ok ov =>
        rw [hcr] at hres
        rcases foldE_ok_mem hres hcv with ⟨acc, acc', hstep⟩
        have hnone := hov ov hcr
        simp [processColumn, hv, hoth, hcom, hmet, hnone] at hstep
    cases hmap : mapE (processRow clean s (make_answer_code_to_text_mapping s) df'.cols)
        df'.rows with
    | error e =>
      exact ⟨e, rfl⟩
    | ok dicts =>
      rcases mapE_ok_mem hmap hr with ⟨dd, hdd⟩
      exact absurd hdd (hrowErr dd)

/-- C3 witness: with the unknown value in the retained row, the run raises. -/
theorem c3_witness :
    ∃ e, process_user_input (fun t => t) c3BadSurvey true true = .error e := by
  refine c3_theorem (fun t => t) c3BadSurvey true true
      { cols := ["id", "lastpage", "DEM1", "BAD"],
        rows := [[Cell.int 1, Cell.int 39, Cell.str "A1", Cell.str "x"]] }
      [Cell.int 1, Cell.int 39, Cell.str "A1", Cell.str "x"] "BAD" (Cell.str "x")
      (by rfl) (by decide) (by decide) (by decide) (by decide) (by decide) (by decide) ?_
  intro ov hov
  have hev : create_question_overview_df (fun t => t) c3BadSurvey.questions =
      .ok [("DEM1", ("Age", "List radio", "1"))] := rfl
  rw [hev] at hov
  cases hov
  decide

/-- C3 counterexample: in c3Survey the unknown column BAD carries the
non-missing value x only in a respondent row with lastpage 5, which the
default completion filter drops, so process_user_input returns a result
table instead of raising, refuting the claim as stated. -/
theorem c3_counterexample :
    (Cell.str "x" ≠ Cell.na ∧ hasSubStr "BAD" "other" = false ∧
      hasSubStr "BAD" "comment" = false ∧ "BAD" ∉ metadataCols ∧
      (∀ ov, create_question_overview_df (fun t => t) c3Survey.questions = .ok ov →
        lookupA "BAD" ov = none) ∧
      ("BAD", Cell.str "x") ∈
        c3Survey.dataframe.cols.zip (c3Survey.dataframe.rows.getD 1 [])) ∧
    process_user_input (fun t => t) c3Survey true true = .ok c3Res := by
  refine ⟨⟨by decide, by decide, by decide, by decide, ?_, by decide⟩, ?_⟩
  · intro ov hov
    have hev : create_question_overview_df (fun t => t) c3Survey.questions =
        .ok [("DEM1", ("Age", "List radio", "1"))] := rfl
    rw [hev] at hov
    cases hov
    decide
  · rfl

/-- C6: whenever process_user_input returns a table for a survey whose
response columns are duplicate-free, the table has exactly one row per
retained respondent, in order, and its index is the id cell of each
retained input row. -/
theorem c6_theorem (clean : String → String) (s : Survey) (b f : Bool) (res : ProcResult)
    (hnd : s.dataframe.cols.Nodup)
    (h : process_user_input clean s b f = .ok res) :
    ∃ df', (if b then filter_completed_questions s.dataframe 39
            else Except.ok s.dataframe) = .ok df' ∧
      res.rows.length = df'.rows.length ∧
      res.index = df'.rows.map (fun r => rowIdCell df'.cols r) := by
  unfold process_user_input at h
  cases hconv : convert_questions_to_df s.questions with
  | error e => rw [hconv] at h; exact absurd h (by simp)
  | ok scheme =>
    rw [hconv] at h
    dsimp only at h
    cases hdat : (if b then filter_completed_questions s.dataframe 39
        else Except.ok s.dataframe) with
    | error e => rw [hdat] at h; exact absurd h (by simp)
    | ok df' =>
      rw [hdat] at h
      dsimp only at h
      cases hmap : mapE (processRow clean s (make_answer_code_to_text_mapping s) df'.cols)
          df'.rows with
      | error e => rw [hmap] at h; exact absurd h (by simp)
      | ok dicts =>
        rw [hmap] at h
        dsimp only at h
        cases hext : extract_index dicts with
        | error e => rw [hext] at h; exact absurd h (by simp)
        | ok idx =>
          rw [hext] at h
          simp at h
          refine ⟨df', rfl, ?_, ?_⟩
          · rw [← h]
            simp [mapE_ok_length hmap]
          · rw [← h]
            have hidx := extract_index_ok hext
            have hcols : df'.cols = s.dataframe.cols := dataStage_cols hdat
            have hmapeq : dicts.map (fun d => (lookupA ("id", "") d).getD Cell.na) =
                df'.rows.map (fun r => rowIdCell df'.cols r) := by
              apply mapE_map_eq hmap
              intro r d hrd
              unfold processRow at hrd
              cases hcr : create_question_overview_df clean s.questions with
              | error e => rw [hcr] at hrd; exact absurd hrd (by simp)
              | ok ov =>
                rw [hcr] at hrd
                have hlook := foldE_processColumn_id (df'.cols.zip r) [] d hrd
                rw [hlook]
                have hinit : lookupA ("id", "") ([] : PDict) = none := rfl
                rw [hinit]
                refine idAcc_zip df'.cols r ?_
                rw [hcols]
                exact hnd
            dsimp only
            rw [hidx, hmapeq]

/-- C6 witness at the concrete survey. -/
theorem c6_witness :
    ∃ df', (if true then filter_completed_questions exSurvey.dataframe 39
            else Except.ok exSurvey.dataframe) = .ok df' ∧
      exRes.rows.length = df'.rows.length ∧
      exRes.index = df'.rows.map (fun r => rowIdCell df'.cols r) :=
  c6_theorem (fun t => t) exSurvey true true exRes (by decide) (by rfl)

theorem processColumn_list_step {mapping : List (String × List (String × String))}
    {ov : List (String × (String × String × String))} {d1 d2 : PDict} {col : String}
    {a : String} {info : String × String × String} {qm : List (String × String)}
    (hov : lookupA col ov = some info)
    (ht : info.2.1 = "List radio" ∨ info.2.1 = "List dropdown")
    (hoth : hasSubStr col "other" = false) (hcom : hasSubStr col "comment" = false)
    (hmet : col ∉ metadataCols) (hbr : strHasChar col '[' = false)
    (hmap : lookupA col mapping = some qm)
    (h : processColumn mapping ov d1 (col, Cell.str a) = .ok d2) :
    ∃ t n, lookupA a qm = some t ∧ convert_answer_code_to_int (Cell.str a) = .ok n ∧
      d2 = dinsert (col, "a") (Cell.int n) (dinsert (col, "a_text") (Cell.str t)
        (dinsert (col, "a_code") (Cell.str a) d1)) := by
  have hobt : obtain_answer_text col mapping (some (Cell.str a)) =
      (match lookupA a qm with
       | none => Except.error ("KeyError: " ++ a)
       | some t => Except.ok t) := by
    unfold obtain_answer_text
    rw [if_neg (by simp [hbr])]
    dsimp only
    rw [hmap]
  have hT1 : info.2.1 = "List radio" ∨ info.2.1 = "List dropdown" ∨
      info.2.1 = "List with comment" := by tauto
  simp only [processColumn] at h
  rw [if_neg (by simp)] at h
  rw [if_neg (by simp [hoth])] at h
  rw [if_neg (by simp [hcom])] at h
  rw [if_neg hmet] at h
  rw [hov] at h
  dsimp only at h
  rw [if_pos hT1, hobt] at h
  cases hqa : lookupA a qm with
  | none => rw [hqa] at h; exact absurd h (by simp)
  | some t =>
    rw [hqa] at h
    dsimp only at h
    cases hcv : convert_answer_code_to_int (Cell.str a) with
    | error e => rw [hcv] at h; exact absurd h (by simp)
    | ok n =>
      rw [hcv] at h
      dsimp only at h
      simp at h
      exact ⟨t, n, rfl, rfl, h.symm⟩

/-- C2 (amended): for a retained respondent row holding the non-missing raw
code a under a single-choice question column, the appended output row holds
the code, its mapped text and its integer conversion, provided the survey is
well formed: question titles and response columns are duplicate-free and the
question code contains no bracket, is not a metadata name, and contains
neither other nor comment.  The substring conditions are forced by the
counterexample: a code containing other is routed to the other-column
branch instead. -/
theorem c2_theorem (clean : String → String) (s : Survey) (b f : Bool) (res : ProcResult)
    (df' : Df) (q : Question) (i : Nat) (cells : List Cell) (outRow : PDict) (a : String)
    (hq : q ∈ s.questions)
    (ht : q.question_type = "List radio" ∨ q.question_type = "List dropdown")
    (hTitles : (s.questions.map (fun qq => qq.title)).Nodup)
    (hcols : s.dataframe.cols.Nodup)
    (hoth : hasSubStr q.title "other" = false)
    (hcom : hasSubStr q.title "comment" = false)
    (hbr : strHasChar q.title '[' = false)
    (hmet : q.title ∉ metadataCols)
    (hres : process_user_input clean s b f = .ok res)
    (hdata : (if b then filter_completed_questions s.dataframe 39
              else Except.ok s.dataframe) = .ok df')
    (hrow : df'.rows[i]? = some cells)
    (hcell : (q.title, Cell.str a) ∈ df'.cols.zip cells)
    (hout : res.rows[i]? = some outRow) :
    lookupA (q.title, "a_code") outRow = some (Cell.str a) ∧
    (∃ t, mappingLookup (make_answer_code_to_text_mapping s) q.title a = some t ∧
      lookupA (q.title, "a_text") outRow = some (Cell.str t)) ∧
    (∃ n, convert_answer_code_to_int (Cell.str a) = .ok n ∧
      lookupA (q.title, "a") outRow = some (Cell.int n)) := by
  unfold process_user_input at hres
  cases hconv : convert_questions_to_df s.questions with
  | error e => rw [hconv] at hres; exact absurd hres (by simp)
  | ok scheme =>
    rw [hconv] at hres
    dsimp only at hres
    rw [hdata] at hres
    dsimp only at hres
    cases hmap : mapE (processRow clean s (make_answer_code_to_text_mapping s) df'.cols)
        df'.rows with
    | error e => rw [hmap] at hres; exact absurd hres (by simp)
    | ok dicts =>
      rw [hmap] at hres
      dsimp only at hres
      cases hext : extract_index dicts with
      | error e => rw [hext] at hres; exact absurd hres (by simp)
      | ok idx =>
        rw [hext] at hres
        simp at hres
        rcases mapE_ok_get hmap hrow with ⟨d, hdi, hprd⟩
        have houtd : outRow = d.filter (fun kv => !(decide (kv.1.1 = "id"))) := by
          rw [← hres] at hout
          dsimp only at hout
          rw [List.getElem?_map, hdi] at hout
          simp at hout
          exact hout.symm
        unfold processRow at hprd
        cases hcr : create_question_overview_df clean s.questions with
        | error e => rw [hcr] at hprd; exact absurd hprd (by simp)
        | ok ov =>
          rw [hcr] at hprd
          dsimp only at hprd
          have hTf : ¬(q.question_type = "Multiple choice" ∨
              q.question_type = "Multiple choice with comments" ∨
              q.question_type = "Array") := by
            rcases ht with h | h <;> simp [h]
          have hRf : q.question_type ≠ "Ranking" := by
            rcases ht with h | h <;> simp [h]
          have hovlook := overview_lookup_plain hcr hq hTitles hbr hTf hRf
          have hmaplook : lookupA q.title (make_answer_code_to_text_mapping s) =
              some (question_answer_map q) := mapping_lookup hq hTitles
          have hcolsdf : df'.cols.Nodup := by
            rw [dataStage_cols hdata]
            exact hcols
          rcases zip_split hcolsdf hcell with ⟨L1, L2, heq, hL1, hL2⟩
          rw [heq, foldE_append] at hprd
          cases hf1 : foldE (processColumn (make_answer_code_to_text_mapping s) ov) [] L1 with
          | error e => rw [hf1] at hprd; exact absurd hprd (by simp)
          | ok d1 =>
            rw [hf1] at hprd
            dsimp only at hprd
            simp only [foldE] at hprd
            cases hstep : processColumn (make_answer_code_to_text_mapping s) ov d1
                (q.title, Cell.str a) with
            | error e => rw [hstep] at hprd; exact absurd hprd (by simp)
            | ok d2 =>
              rw [hstep] at hprd
              rcases processColumn_list_step hovlook ht hoth hcom hmet hbr hmaplook hstep with
                ⟨t, n, hqa, hcv, hd2⟩
              have hpa := foldE_processColumn_pres (Or.inl rfl) L2 d2 d hL2 hprd
              have hpt := foldE_processColumn_pres (Or.inr (Or.inl rfl)) L2 d2 d hL2 hprd
              have hpv := foldE_processColumn_pres (Or.inr (Or.inr rfl)) L2 d2 d hL2 hprd
              have hcid : q.title ≠ "id" := by
                intro hcontra
                apply hmet
                rw [hcontra]
                simp [metadataCols]
              have hfil : ∀ x : String,
                  lookupA (q.title, x) outRow = lookupA (q.title, x) d := by
                intro x
                rw [houtd]
                exact lookupA_filter _ d (fun v => by simp [hcid])
              have hne_at : ((q.title, "a_text") : String × String) ≠ (q.title, "a") := by
                simp
              have hne_ac : ((q.title, "a_code") : String × String) ≠ (q.title, "a") := by
                simp
              have hne_ac2 : ((q.title, "a_code") : String × String) ≠ (q.title, "a_text") := by
                simp
              refine ⟨?_, ⟨t, ?_, ?_⟩, ⟨n, hcv, ?_⟩⟩
              · rw [hfil, hpa, hd2, lookupA_dinsert_ne _ _ hne_ac,
                  lookupA_dinsert_ne _ _ hne_ac2, lookupA_dinsert_self]
              · simp only [mappingLookup]
                rw [hmaplook]
                exact hqa
              · rw [hfil, hpt, hd2, lookupA_dinsert_ne _ _ hne_at, lookupA_dinsert_self]
              · rw [hfil, hpv, hd2, lookupA_dinsert_self]

/-- C2 counterexample: the question code another of type List radio contains
the substring other, so the non-missing code A1 is routed to the other
branch: the run succeeds, yet the appended row has no a_code, a_text or a
entry for the question, refuting the claim as stated. -/
theorem c2_counterexample :
    c2Q ∈ c2Survey.questions ∧ c2Q.question_type = "List radio" ∧
    ("another", Cell.str "A1") ∈
      c2Survey.dataframe.cols.zip (c2Survey.dataframe.rows.getD 0 []) ∧
    process_user_input (fun t => t) c2Survey true true = .ok c2Res ∧
    lookupA ("another", "a_code") (c2Res.rows.getD 0 []) = none ∧
    lookupA ("another", "a_text") (c2Res.rows.getD 0 []) = none ∧
    lookupA ("another", "a") (c2Res.rows.getD 0 []) = none := by
  exact ⟨by decide, rfl, by decide, rfl, by decide, by decide, by decide⟩

/-- C2 witness at the concrete survey: the DEM1 cell A2 of the retained
respondent lands in the output row as code, text Old and integer 2. -/
theorem c2_witness :
    lookupA ("DEM1", "a_code") (exRes.rows.getD 0 []) = some (Cell.str "A2") ∧
    (∃ t, mappingLookup (make_answer_code_to_text_mapping exSurvey) "DEM1" "A2" = some t ∧
      lookupA ("DEM1", "a_text") (exRes.rows.getD 0 []) = some (Cell.str t)) ∧
    (∃ n, convert_answer_code_to_int (Cell.str "A2") = .ok n ∧
      lookupA ("DEM1", "a") (exRes.rows.getD 0 []) = some (Cell.int n)) :=
  c2_theorem (fun t => t) exSurvey true true exRes
    { cols := ["id", "lastpage", "DEM1"],
      rows := [[Cell.int 3, Cell.int 39, Cell.str "A2"]] }
    exListQ 0 [Cell.int 3, Cell.int 39, Cell.str "A2"] (exRes.rows.getD 0 []) "A2"
    (by decide) (Or.inl rfl) (by decide) (by decide) (by decide) (by decide) (by decide)
    (by decide) (by rfl) (by rfl) (by rfl) (by decide) (by rfl)

end MLSurvey
